import Mathlib

/-!
Verification of the Panther compilation-driver core
(`src/Panther/src/Context.cpp`, `src/Panther/src/default_diagnostic_callback.cpp`,
`src/Panther/include/TokenBuffer.h`) against its natural-language specification.

The development shallowly embeds the single-threaded driver: pure C++ member
functions become Lean functions on an explicit `Context` state, the task queue is
passed explicitly as a list, the filesystem and the tokenizer are function
parameters.  Machine integers that can overflow (`size_t` column arithmetic,
`uint32_t` caret loop bound) are modelled as `Nat` with explicit `% 2^w`.
-/

namespace Panther

/-! ## Diagnostics data model (`Diagnostic`, §3 of the spec) -/

inductive Level where
  | Fatal
  | Error
  | Warning
  | Info
deriving DecidableEq, Repr

inductive Code where
  | MiscFileDoesNotExist
  | MiscLoadFileFailed
  | TokenizerError
deriving DecidableEq, Repr

/-- `Source::Location`: 1-based `lineStart`, `collumnStart`, `lineEnd`, `collumnEnd`
(spelling as in the source), tagged with the owning source's ID. -/
structure SrcLocation where
  sourceID : Nat
  lineStart : Nat
  collumnStart : Nat
  lineEnd : Nat
  collumnEnd : Nat
deriving DecidableEq, Repr

structure DiagnosticInfo where
  message : String
  location : Option SrcLocation
deriving DecidableEq, Repr

structure Diagnostic where
  level : Level
  code : Code
  location : Option SrcLocation
  message : String
  infos : List DiagnosticInfo
deriving DecidableEq, Repr

/-! ## TokenBuffer (`TokenBuffer.h`)

`Token` itself lives in the absent `Token.h`; per §3 of the spec a token is a
kind, a location and a payload of none / bool / u64 / f64 / string.  The string
payload is stored out-of-band in `string_literals` (a
`std::vector<std::unique_ptr<std::string>>` in the header) and the token holds a
stable reference, modelled here as the index into `string_literals`.  The f64
payload is modelled by its bit pattern, which is all the claims need. -/

inductive TokenPayload where
  | payloadNone
  | payloadBool (b : Bool)
  | payloadUInt (v : Nat)
  | payloadFloatBits (bits : Nat)
  | payloadString (literalIdx : Nat)
deriving DecidableEq, Repr

structure Token where
  kind : Nat
  location : SrcLocation
  payload : TokenPayload
deriving DecidableEq, Repr

structure TokenBuffer where
  tokens : List Token
  string_literals : List String
  is_locked : Bool
deriving DecidableEq, Repr

def TokenBuffer.emptyBuffer : TokenBuffer :=
  { tokens := [], string_literals := [], is_locked := false }

def TokenBuffer.size (buf : TokenBuffer) : Nat :=
  buf.tokens.length

/-- `TokenBuffer::lock()` (TokenBuffer.h line 59). -/
def TokenBuffer.lock (buf : TokenBuffer) : TokenBuffer :=
  { buf with is_locked := true }

def TokenBuffer.isLocked (buf : TokenBuffer) : Bool :=
  buf.is_locked

/-- Argument of the five `createToken` overloads (none / bool / u64 / f64 /
owned string). -/
inductive CreateArg where
  | argNone
  | argBool (b : Bool)
  | argUInt (v : Nat)
  | argFloatBits (bits : Nat)
  | argString (s : String)
deriving DecidableEq, Repr

/-- Modelled from the spec: `TokenBuffer.cpp` (the bodies of the five
`createToken` overloads) is absent from the sources; only the declarations in
`TokenBuffer.h` are present.  Per §4.1 of the spec, `create_token` appends a
token and returns the new dense `Token::ID`; for the string overload the buffer
takes ownership of the byte sequence; calling it on a locked buffer is a
contract violation (`BufferLocked` in checked builds), modelled as `none`. -/
def TokenBuffer.createToken (buf : TokenBuffer) (kind : Nat) (location : SrcLocation)
    (arg : CreateArg) : Option (TokenBuffer × Nat) :=
  if buf.is_locked then
    none
  else
    let newID := buf.tokens.length
    match arg with
    | .argNone =>
        some ({ buf with tokens := buf.tokens ++ [⟨kind, location, .payloadNone⟩] }, newID)
    | .argBool b =>
        some ({ buf with tokens := buf.tokens ++ [⟨kind, location, .payloadBool b⟩] }, newID)
    | .argUInt v =>
        some ({ buf with tokens := buf.tokens ++ [⟨kind, location, .payloadUInt v⟩] }, newID)
    | .argFloatBits bits =>
        some ({ buf with tokens := buf.tokens ++ [⟨kind, location, .payloadFloatBits bits⟩] }, newID)
    | .argString s =>
        some ({ buf with
                 tokens := buf.tokens ++ [⟨kind, location, .payloadString buf.string_literals.length⟩],
                 string_literals := buf.string_literals ++ [s] }, newID)

/-- A client-visible operation on a `TokenBuffer`: either `lock()` or one of the
`createToken` overloads.  A `createToken` on a locked buffer is the contract
violation; checked builds halt, release builds leave the buffer unchanged. -/
inductive TBOp where
  | opLock
  | opCreate (kind : Nat) (location : SrcLocation) (arg : CreateArg)
deriving DecidableEq, Repr

def TokenBuffer.applyOp (buf : TokenBuffer) (op : TBOp) : TokenBuffer :=
  match op with
  | .opLock => buf.lock
  | .opCreate kind location arg =>
      match buf.createToken kind location arg with
      | none => buf
      | some (buf2, _) => buf2

def TokenBuffer.applyOps (buf : TokenBuffer) (ops : List TBOp) : TokenBuffer :=
  ops.foldl TokenBuffer.applyOp buf

/-! ## Sources and the SourceManager

`Source.cpp` / `SourceManager.cpp` are absent from the sources; the driver in
`Context.cpp` calls `reserveSources`, `addSource`, `getSource` and iterates
`src_manager.sources`.  Per §3/§4.2 of the spec a `Source` is
`{ id, path, data, token_buffer }` with the buffer default-constructed at
creation, and `add_source` appends a new source and returns the newly assigned
dense ID (IDs gap-free from `0` to `N-1`). -/

structure Source where
  id : Nat
  path : String
  data : String
  token_buffer : TokenBuffer
deriving DecidableEq, Repr

structure SourceManager where
  sources : List Source
deriving DecidableEq, Repr

/-- Modelled from the spec: `SourceManager::addSource` (its body lives in the
absent `SourceManager.cpp`) appends a `Source` with a default-constructed empty
`TokenBuffer` and returns the newly assigned dense `SourceID`. -/
def SourceManager.addSource (sm : SourceManager) (path : String) (data : String) :
    SourceManager × Nat :=
  let newID := sm.sources.length
  ({ sources := sm.sources ++ [⟨newID, path, data, TokenBuffer.emptyBuffer⟩] }, newID)

/-- `SourceManager::getSource(id)`: dense IDs index the source registry.
`none` corresponds to the out-of-contract case (bounds assert in debug). -/
def SourceManager.getSource (sm : SourceManager) (sid : Nat) : Option Source :=
  sm.sources[sid]?

/-- The in-place replacement of a source's token buffer
(`std::construct_at(&source.token_buffer, ...)` in `run_tokenize_file`). -/
def SourceManager.setTokenBuffer (sm : SourceManager) (sid : Nat) (buf : TokenBuffer) :
    SourceManager :=
  match sm.sources[sid]? with
  | none => sm
  | some s => { sources := sm.sources.set sid { s with token_buffer := buf } }

/-! ## Tasks, the filesystem and the tokenizer -/

/-- The tagged `Task` variant (`LoadFileTask` / `TokenizeFileTask`). -/
inductive Task where
  | LoadFile (path : String)
  | TokenizeFile (source_id : Nat)
deriving DecidableEq, Repr

/-- Outcome of the `evo::fs` primitives for one path, covering the three
failure branches of `run_load_file`: `exists` false, `open` false,
`read` errored, or success with the file's bytes. -/
inductive FileResult where
  | notExists
  | openFail
  | readFail
  | ok (data : String)
deriving DecidableEq, Repr

/-- A filesystem is a pure map from paths to file-access outcomes. -/
def FileSystem : Type := String → FileResult

/-- Result of `Tokenizer::tokenize()` (`evo::Result<TokenBuffer>`). -/
inductive TokenizeResult where
  | ok (buf : TokenBuffer)
  | error
deriving DecidableEq, Repr

/-- A tokenizer is a pure function of the source bytes (spec §1: "The tokenizer
is modeled as a pure function bytes → token buffer"). -/
def TokenizerFn : Type := String → TokenizeResult

/-! ## The driver (`Context`)

Only the single-threaded driver is embedded (`config.numThreads = 0`); the
task queue is passed explicitly alongside the `Context` state.  `emitTrace` /
`emitDebug` are verbosity-gated internal notes and are not modelled in the
diagnostics log. -/

structure Context where
  maxNumErrors : Nat
  num_errors : Nat
  hit_fail_condition : Bool
  task_group_running : Bool
  src_manager : SourceManager
  /-- Diagnostics delivered to the callback, in delivery order. -/
  diagnostics : List Diagnostic
deriving DecidableEq, Repr

/-- A fresh `Context` (constructor at Context.cpp line 17; asserts
`maxNumErrors > 0`). -/
def Context.init (maxNumErrors : Nat) : Context :=
  { maxNumErrors := maxNumErrors
    num_errors := 0
    hit_fail_condition := false
    task_group_running := false
    src_manager := ⟨[]⟩
    diagnostics := [] }

def Context.hasHitFailCondition (ctx : Context) : Bool :=
  ctx.hit_fail_condition

/-- `Context::emit_diagnostic_internal`: delivers one diagnostic to the
callback (under `callback_mutex` in the C++).  The error-count increment is
done explicitly by its callers in `Context.cpp` (`num_errors += 1` precedes
each call in `run_load_file`). -/
def Context.emit_diagnostic_internal (ctx : Context) (level : Level) (code : Code)
    (location : Option SrcLocation) (message : String) : Context :=
  { ctx with diagnostics := ctx.diagnostics ++ [⟨level, code, location, message, []⟩] }

/-- `Context::notify_task_errored` (Context.cpp lines 189-201), single-threaded:
latch `hit_fail_condition` when the error count has reached the ceiling.  The
multi-threaded branch (detached shutdown helper) is outside this embedding. -/
def Context.notify_task_errored (ctx : Context) : Context :=
  if ctx.num_errors ≥ ctx.maxNumErrors then
    { ctx with hit_fail_condition := true }
  else
    ctx

/-- `Context::Worker::run_load_file` (Context.cpp lines 284-323). -/
def Context.run_load_file (fs : FileSystem) (ctx : Context) (path : String) :
    Context × Bool :=
  match fs path with
  | .notExists =>
      let ctx := { ctx with num_errors := ctx.num_errors + 1 }
      (ctx.emit_diagnostic_internal .Error .MiscFileDoesNotExist none
        ("File \"" ++ path ++ "\" does not exist"), false)
  | .openFail =>
      let ctx := { ctx with num_errors := ctx.num_errors + 1 }
      (ctx.emit_diagnostic_internal .Error .MiscLoadFileFailed none
        ("Failed to load file: \"" ++ path ++ "\""), false)
  | .readFail =>
      let ctx := { ctx with num_errors := ctx.num_errors + 1 }
      (ctx.emit_diagnostic_internal .Error .MiscLoadFileFailed none
        ("Failed to load file: \"" ++ path ++ "\""), false)
  | .ok data =>
      ({ ctx with src_manager := (ctx.src_manager.addSource path data).1 }, true)

/-- Modelled from the spec: `Tokenizer.cpp` is absent.  Per §4.5/§7 a failing
tokenizer "emits its own diagnostics" through the driver before
`tokenize()` returns its error result; this is modelled as one Error-level
diagnostic whose emission increments `num_errors` by one (the same
explicit-increment pattern `run_load_file` uses). -/
def Context.emit_tokenizer_error (ctx : Context) (sid : Nat) : Context :=
  let ctx := { ctx with num_errors := ctx.num_errors + 1 }
  ctx.emit_diagnostic_internal .Error .TokenizerError none
    ("Failed to tokenize source " ++ Nat.repr sid)

/-- `Context::Worker::run_tokenize_file` (Context.cpp lines 327-339).  An
invalid `source_id` is out of contract (tasks are only ever enqueued for
registered sources) and is modelled as a no-op. -/
def Context.run_tokenize_file (tok : TokenizerFn) (ctx : Context) (sid : Nat) :
    Context × Bool :=
  match ctx.src_manager.getSource sid with
  | none => (ctx, true)
  | some source =>
      match tok source.data with
      | .error => (ctx.emit_tokenizer_error sid, false)
      | .ok buf => ({ ctx with src_manager := ctx.src_manager.setTokenBuffer sid buf }, true)

/-- `Context::Worker::run_task` (Context.cpp lines 269-280): dispatch on the
task variant; on failure notify the driver. -/
def Context.run_task (fs : FileSystem) (tok : TokenizerFn) (ctx : Context) (task : Task) :
    Context :=
  let (ctx2, run_task_res) :=
    match task with
    | .LoadFile path => ctx.run_load_file fs path
    | .TokenizeFile sid => ctx.run_tokenize_file tok sid
  if run_task_res = false then ctx2.notify_task_errored else ctx2

/-- `Context::consume_tasks_single_threaded` (Context.cpp lines 204-214) plus
`Worker::get_task_single_threaded` (lines 254-266): while the queue is
non-empty and no fail condition was hit, pop one task and run it; clear
`task_group_running` at loop exit.  Returns the final state and the tasks left
unconsumed. -/
def Context.consume_tasks_single_threaded (fs : FileSystem) (tok : TokenizerFn) :
    Context → List Task → Context × List Task
  | ctx, [] => ({ ctx with task_group_running := false }, [])
  | ctx, task :: rest =>
      if ctx.hit_fail_condition then
        ({ ctx with task_group_running := false }, task :: rest)
      else
        Context.consume_tasks_single_threaded fs tok (ctx.run_task fs tok task) rest

/-- The intermediate driver states of the single-threaded drain: the state at
loop entry, then the state after each executed task.  The last element is the
state at loop exit, before `task_group_running` is cleared. -/
def Context.drainTrace (fs : FileSystem) (tok : TokenizerFn) :
    Context → List Task → List Context
  | ctx, [] => [ctx]
  | ctx, task :: rest =>
      if ctx.hit_fail_condition then [ctx]
      else ctx :: Context.drainTrace fs tok (ctx.run_task fs tok task) rest

/-- `Context::loadFiles` (Context.cpp lines 137-158), single-threaded: mark the
task group running, enqueue one `LoadFile` task per path in order, drain
inline.  (`reserveSources` is a capacity hint with no observable effect.) -/
def Context.loadFiles (fs : FileSystem) (tok : TokenizerFn) (ctx : Context)
    (file_paths : List String) : Context × List Task :=
  Context.consume_tasks_single_threaded fs tok
    { ctx with task_group_running := true }
    (file_paths.map Task.LoadFile)

/-- `Context::tokenizeLoadedFiles` (Context.cpp lines 161-177), single-threaded:
enqueue one `TokenizeFile` task per registered source, drain inline. -/
def Context.tokenizeLoadedFiles (fs : FileSystem) (tok : TokenizerFn) (ctx : Context) :
    Context × List Task :=
  Context.consume_tasks_single_threaded fs tok
    { ctx with task_group_running := true }
    (ctx.src_manager.sources.map (fun source => Task.TokenizeFile source.id))

/-! ## The default diagnostic renderer (`default_diagnostic_callback.cpp`)

`print_location` is embedded together with an instrumented *read trace*: the
list of indices at which the scan reads `source.getData()[...]`, in read order.
`std::string::operator[]` guarantees a readable `'\0'` at index `size()`, which
`charAtWithTerminator` reproduces. -/

/-- `size_t` decrement (`point_collumn -= 1`, line 69): wraps modulo `2^64`. -/
def sizeTSub1 (n : Nat) : Nat :=
  (n + (2 ^ 64 - 1)) % 2 ^ 64

/-- The line-finding scan of `print_location` (lines 37-56): advance `cursor`
until `current_line` reaches `location.lineStart`, recognizing `\n`, `\r` and
`\r\n` line ends.  The loop is embedded structurally over `remaining`, the
suffix of the data starting at `cursor`; the C++ lookahead
`source.getData()[cursor + 1] == '\n'` after a `'\r'` is the head of `rest`
(`std::string` guarantees a `'\0'` at index `size()`, which is not `'\n'`, so
an empty `rest` takes the else branch exactly as the C++ does), and that
lookahead records index `cursor + 1` in the read trace.  `none` models the
`debugAssert(cursor < size)` firing (the requested line does not exist).
Returns the suffix and cursor at the line start and the read trace. -/
def find_line_start (lineStart : Nat) (remaining : List Char) (cursor current_line : Nat)
    (trace : List Nat) : Option (List Char × Nat × List Nat) :=
  if current_line < lineStart then
    match remaining with
    | [] => none
    | c :: rest =>
        if c = '\n' then
          find_line_start lineStart rest (cursor + 1) (current_line + 1) (trace ++ [cursor])
        else if c = '\r' then
          match rest with
          | '\n' :: rest2 =>
              find_line_start lineStart rest2 (cursor + 2) (current_line + 1)
                (trace ++ [cursor, cursor + 1])
          | [] =>
              find_line_start lineStart [] (cursor + 1) (current_line + 1)
                (trace ++ [cursor, cursor + 1])
          | c2 :: rest2 =>
              find_line_start lineStart (c2 :: rest2) (cursor + 1) (current_line + 1)
                (trace ++ [cursor, cursor + 1])
        else
          find_line_start lineStart rest (cursor + 1) current_line (trace ++ [cursor])
  else
    some (remaining, cursor, trace)

/-- The line-extraction loop of `print_location` (lines 62-77): copy the line's
characters, stripping leading whitespace and decrementing the caret column
(`point_collumn`) for each stripped character.  The C++ loop condition reads
`data[cursor]` *before* checking `cursor < size`; at `cursor = size` it reads
the `'\0'` terminator (neither `'\n'` nor `'\r'`) and only then stops on the
bounds check, so the iteration with `remaining = []` still records `cursor` in
the read trace.  Returns `(line_str, point_collumn, cursor, trace)`. -/
def extract_line (remaining : List Char) (cursor point_collumn : Nat)
    (remove_whitespace : Bool) (line_str : List Char) (trace : List Nat) :
    List Char × Nat × Nat × List Nat :=
  match remaining with
  | [] => (line_str, point_collumn, cursor, trace ++ [cursor])
  | c :: rest =>
      if c = '\n' ∨ c = '\r' then
        (line_str, point_collumn, cursor, trace ++ [cursor])
      else if remove_whitespace ∧ (c = '\t' ∨ c = ' ') then
        extract_line rest (cursor + 1) (sizeTSub1 point_collumn) remove_whitespace line_str
          (trace ++ [cursor])
      else
        extract_line rest (cursor + 1) point_collumn false (line_str ++ [c]) (trace ++ [cursor])

/-- The caret span of the pointer line (lines 101-113).  Single-line spans draw
`'^'` from `collumnStart` to `collumnEnd` inclusive (the bound
`location.collumnEnd + 1` is `uint32_t` arithmetic, hence the `% 2^32`);
multi-line spans draw `'^'` then `'~'` to the end of the displayed line. -/
def pointer_carets (location : SrcLocation) (point_collumn line_len : Nat) : List Char :=
  if location.lineStart = location.lineEnd then
    List.replicate ((location.collumnEnd + 1) % 2 ^ 32 - location.collumnStart) '^'
  else
    if point_collumn < line_len + 1 then
      '^' :: List.replicate (line_len - point_collumn) '~'
    else
      []

/-- One terminal-printer call made by the renderer (`core::Printer`). -/
inductive PrintEvent where
  | gray (s : String)
  | fatal (s : String)
  | error (s : String)
  | warning (s : String)
  | info (s : String)
  | cyan (s : String)
deriving DecidableEq, Repr

structure PrintLocationResult where
  /-- The printer calls, in order: file location, displayed line, pointer-line
  padding, pointer line. -/
  events : List PrintEvent
  /-- The displayed line after whitespace stripping. -/
  line_str : List Char
  /-- The caret column after whitespace adjustment. -/
  point_collumn : Nat
  /-- Indices at which the scan read the source bytes. -/
  readTrace : List Nat
deriving DecidableEq, Repr

/-- `print_location` (default_diagnostic_callback.cpp lines 15-123).
`Source::getLocationAsString` lives in the absent `Source.cpp` and is modelled
as the source's path.  `none` models the scan's debug assert firing. -/
def print_location (source : Source) (level : Level) (location : SrcLocation) :
    Option PrintLocationResult :=
  let data := source.data.data
  let line_number_str := Nat.repr location.lineStart
  let headerEvent := PrintEvent.gray
    ("\t" ++ source.path ++ ":" ++ Nat.repr location.lineStart ++ ":"
      ++ Nat.repr location.collumnStart ++ "\n")
  match find_line_start location.lineStart data 0 1 [] with
  | none => none
  | some (remaining, cursor, trace1) =>
      match extract_line remaining cursor location.collumnStart true [] trace1 with
      | (line_str, point_collumn, _, trace2) =>
          let lineEvent := PrintEvent.gray
            ("\t" ++ line_number_str ++ " | " ++ String.mk line_str ++ "\n")
          let line_space_str := String.mk (List.replicate line_number_str.length ' ')
          let spaceEvent := PrintEvent.gray ("\t" ++ line_space_str ++ " | ")
          let pointer_str := String.mk
            (List.replicate (sizeTSub1 point_collumn) ' '
              ++ pointer_carets location point_collumn line_str.length ++ ['\n'])
          let pointerEvent :=
            match level with
            | .Fatal => PrintEvent.error pointer_str
            | .Error => PrintEvent.error pointer_str
            | .Warning => PrintEvent.warning pointer_str
            | .Info => PrintEvent.info pointer_str
          some { events := [headerEvent, lineEvent, spaceEvent, pointerEvent]
                 line_str := line_str
                 point_collumn := point_collumn
                 readTrace := trace2 }

/-- The events `print_location` contributes inside the callback.  An unknown
`sourceID` or a non-existent line is out of contract (debug assert in C++) and
contributes nothing. -/
def print_location_events (sm : SourceManager) (level : Level) (location : SrcLocation) :
    List PrintEvent :=
  match sm.getSource location.sourceID with
  | none => []
  | some source =>
      match print_location source level location with
      | none => []
      | some res => res.events

def levelStr : Level → String
  | .Fatal => "Fatal"
  | .Error => "Error"
  | .Warning => "Warning"
  | .Info => "Info"

def codeStr : Code → String
  | .MiscFileDoesNotExist => "MiscFileDoesNotExist"
  | .MiscLoadFileFailed => "MiscLoadFileFailed"
  | .TokenizerError => "TokenizerError"

/-- The closure returned by `createDefaultDiagnosticCallback`
(default_diagnostic_callback.cpp lines 128-156), as the list of printer calls
it makes for one diagnostic: the level-tagged header (whose `switch` has no
`Info` case), the top-level location rendering, then each info note with its
own location rendering at `Info` level. -/
def defaultDiagnosticCallback (sm : SourceManager) (d : Diagnostic) : List PrintEvent :=
  let diagnostic_message :=
    "<" ++ levelStr d.level ++ "|" ++ codeStr d.code ++ "> " ++ d.message ++ "\n"
  let headerEvents : List PrintEvent :=
    match d.level with
    | .Fatal => [.fatal diagnostic_message]
    | .Error => [.error diagnostic_message]
    | .Warning => [.warning diagnostic_message]
    | .Info => []
  let locationEvents : List PrintEvent :=
    match d.location with
    | none => []
    | some location => print_location_events sm d.level location
  let infoEvents : List PrintEvent :=
    (d.infos.map (fun info =>
      PrintEvent.cyan ("\t<Info> " ++ info.message ++ "\n") ::
        (match info.location with
         | none => []
         | some loc => print_location_events sm .Info loc))).flatten
  headerEvents ++ locationEvents ++ infoEvents

/-- The effect of a successful `TokenizeFile` task on its source: the buffer
produced by the tokenizer replaces the source's `token_buffer` in place
(`std::construct_at` at Context.cpp line 335); a failing tokenizer leaves the
buffer untouched. -/
def tokInstall (tok : TokenizerFn) (s : Source) : Source :=
  match tok s.data with
  | .ok buf => { s with token_buffer := buf }
  | .error => s

/-- A printer call that is a level-tagged message header line: one of the
`printFatal` / `printError` / `printWarning` calls whose text is the
`"<level|code> message"` line.  Pointer lines also go through `printError` /
`printWarning`, but they consist of `' '`, `'^'`, `'~'` and a final newline,
so the leading `'<'` identifies headers. -/
def isHeaderEvent : PrintEvent → Bool
  | .fatal s => s.data.head? = some '<'
  | .error s => s.data.head? = some '<'
  | .warning s => s.data.head? = some '<'
  | _ => false

/-! ## Concrete inputs for the spec's scenarios -/

/-- A tokenizer that always succeeds with an empty buffer (scenario runs that
never reach tokenization, or do not care about token contents). -/
def tokTrivial : TokenizerFn := fun _ => TokenizeResult.ok TokenBuffer.emptyBuffer

/-- Scenario 3's filesystem: `exists.x` is present, everything else missing. -/
def fsScenario : FileSystem := fun path =>
  if path = "exists.x" then FileResult.ok "some source text" else FileResult.notExists

/-- A filesystem on which every path is missing. -/
def fsAllMissing : FileSystem := fun _ => FileResult.notExists

/-- A filesystem on which every path loads cleanly. -/
def fsAllOk : FileSystem := fun _ => FileResult.ok "loaded bytes"

/-- Scenario 5's source: `"abc\n  xyz\n"`. -/
def srcC6 : Source :=
  { id := 0, path := "test.pthr", data := "abc\n  xyz\n"
    token_buffer := TokenBuffer.emptyBuffer }

/-- Scenario 5's diagnostic location: line 2, columns 3 through 5. -/
def locC6 : SrcLocation :=
  { sourceID := 0, lineStart := 2, collumnStart := 3, lineEnd := 2, collumnEnd := 5 }

/-- A one-byte source whose single line has no trailing line terminator. -/
def srcC9 : Source :=
  { id := 0, path := "last.pthr", data := "a", token_buffer := TokenBuffer.emptyBuffer }

def locC9 : SrcLocation :=
  { sourceID := 0, lineStart := 1, collumnStart := 1, lineEnd := 1, collumnEnd := 1 }

/-- An `Info`-level diagnostic with a location, for exercising the callback's
header `switch` (which has no `Info` case). -/
def srcC10 : Source :=
  { id := 0, path := "note.pthr", data := "hi\n", token_buffer := TokenBuffer.emptyBuffer }

def locC10 : SrcLocation :=
  { sourceID := 0, lineStart := 1, collumnStart := 1, lineEnd := 1, collumnEnd := 2 }

def smC10 : SourceManager := ⟨[srcC10]⟩

def dC10 : Diagnostic :=
  { level := Level.Info, code := Code.TokenizerError, location := some locC10
    message := "a note", infos := [] }

/-- A driver state after a clean load of one file (dense IDs, no errors). -/
def ctxC8 : Context :=
  { Context.init 5 with
      src_manager := ⟨[⟨0, "a.x", "var x;", TokenBuffer.emptyBuffer⟩]⟩ }

/-- The rendering `print_location` produces for `srcC10` / `locC10`. -/
def resC10 : PrintLocationResult :=
  { events := [PrintEvent.gray "\tnote.pthr:1:1\n", PrintEvent.gray "\t1 | hi\n",
               PrintEvent.gray "\t  | ", PrintEvent.info "^^\n"]
    line_str := ['h', 'i']
    point_collumn := 1
    readTrace := [0, 1, 2] }

/-! # Theorems -/

/-! ## Helper lemmas about single driver steps -/

theorem notify_num_errors (ctx : Context) :
    ctx.notify_task_errored.num_errors = ctx.num_errors := by
  unfold Context.notify_task_errored
  split <;> rfl

theorem notify_maxNumErrors (ctx : Context) :
    ctx.notify_task_errored.maxNumErrors = ctx.maxNumErrors := by
  unfold Context.notify_task_errored
  split <;> rfl

theorem notify_src_manager (ctx : Context) :
    ctx.notify_task_errored.src_manager = ctx.src_manager := by
  unfold Context.notify_task_errored
  split <;> rfl

theorem notify_hit_fail (ctx : Context) :
    ctx.notify_task_errored.hit_fail_condition =
      (ctx.hit_fail_condition || decide (ctx.maxNumErrors ≤ ctx.num_errors)) := by
  unfold Context.notify_task_errored
  split <;> rename_i h <;> simp [h]

theorem locked_applyOp (buf : TokenBuffer) (op : TBOp) (h : buf.is_locked = true) :
    (buf.applyOp op).is_locked = true := by
  cases op with
  | opLock => simp [TokenBuffer.applyOp, TokenBuffer.lock]
  | opCreate kind location arg => simp [TokenBuffer.applyOp, TokenBuffer.createToken, h]

theorem locked_applyOps (buf : TokenBuffer) (ops : List TBOp) (h : buf.is_locked = true) :
    (buf.applyOps ops).is_locked = true := by
  induction ops generalizing buf with
  | nil => simpa [TokenBuffer.applyOps] using h
  | cons op rest ih =>
      have hstep : buf.applyOps (op :: rest) = (buf.applyOp op).applyOps rest := rfl
      rw [hstep]
      exact ih _ (locked_applyOp buf op h)

theorem createToken_locked (buf : TokenBuffer) (h : buf.is_locked = true) (kind : Nat)
    (location : SrcLocation) (arg : CreateArg) :
    buf.createToken kind location arg = none := by
  simp [TokenBuffer.createToken, h]

/-! ## C7 -/

/-- C7: once `lock()` has been called on a `TokenBuffer`, `is_locked` stays
true across every further sequence of operations, and any further
`create_token` is the contract violation (returns `none`, i.e. fails with
`BufferLocked` in checked builds) rather than a successful append. -/
theorem C7_lock_latches (buf : TokenBuffer) (ops : List TBOp) (kind : Nat)
    (location : SrcLocation) (arg : CreateArg) :
    ((buf.lock.applyOps ops).is_locked = true) ∧
    (buf.lock.applyOps ops).createToken kind location arg = none := by
  have hlock : buf.lock.is_locked = true := rfl
  have h := locked_applyOps _ ops hlock
  exact ⟨h, createToken_locked _ h _ _ _⟩

/-! ## C5 -/

/-- C5: the single-threaded drain terminates (`consume_tasks_single_threaded`
is total, and the leftover queue never exceeds the input queue), and on return
either the queue was fully consumed or the fail condition was hit, and
`task_group_running` is false. -/
theorem C5_drain_postcondition (fs : FileSystem) (tok : TokenizerFn) (ctx : Context)
    (tasks : List Task) :
    ((Context.consume_tasks_single_threaded fs tok ctx tasks).2 = [] ∨
      (Context.consume_tasks_single_threaded fs tok ctx tasks).1.hit_fail_condition = true) ∧
    (Context.consume_tasks_single_threaded fs tok ctx tasks).1.task_group_running = false ∧
    (Context.consume_tasks_single_threaded fs tok ctx tasks).2.length ≤ tasks.length := by
  induction tasks generalizing ctx with
  | nil => simp [Context.consume_tasks_single_threaded]
  | cons task rest ih =>
      by_cases h : ctx.hit_fail_condition
      · simp [Context.consume_tasks_single_threaded, h]
      · simp only [Context.consume_tasks_single_threaded, h, if_neg, Bool.false_eq_true,
          ite_false]
        obtain ⟨h1, h2, h3⟩ := ih (ctx.run_task fs tok task)
        exact ⟨h1, h2, Nat.le_succ_of_le h3⟩

/-! ## C1 -/

/-- C1: for every task whose handler returns failure (`LoadFile` and
`TokenizeFile` alike), `num_errors` is incremented by at least one as part of
handling that failure, and `notify_task_errored` then raises the fail
condition whenever `num_errors` has reached `max_num_errors`. -/
theorem C1_failure_increments_errors (fs : FileSystem) (tok : TokenizerFn) (ctx : Context)
    (task : Task)
    (hfail : (match task with
              | Task.LoadFile path => (ctx.run_load_file fs path).2
              | Task.TokenizeFile sid => (ctx.run_tokenize_file tok sid).2) = false) :
    ctx.num_errors + 1 ≤ (ctx.run_task fs tok task).num_errors ∧
    (ctx.maxNumErrors ≤ (ctx.run_task fs tok task).num_errors →
      (ctx.run_task fs tok task).hit_fail_condition = true) := by
  cases task with
  | LoadFile path =>
      cases hfs : fs path with
      | notExists =>
          simp [Context.run_task, Context.run_load_file, hfs,
            Context.emit_diagnostic_internal, notify_num_errors, notify_hit_fail]
          omega
      | openFail =>
          simp [Context.run_task, Context.run_load_file, hfs,
            Context.emit_diagnostic_internal, notify_num_errors, notify_hit_fail]
          omega
      | readFail =>
          simp [Context.run_task, Context.run_load_file, hfs,
            Context.emit_diagnostic_internal, notify_num_errors, notify_hit_fail]
          omega
      | ok d => simp [Context.run_load_file, hfs] at hfail
  | TokenizeFile sid =>
      cases hsrc : ctx.src_manager.getSource sid with
      | none => simp [Context.run_tokenize_file, hsrc] at hfail
      | some source =>
          cases htok : tok source.data with
          | ok buf => simp [Context.run_tokenize_file, hsrc, htok] at hfail
          | error =>
              simp [Context.run_task, Context.run_tokenize_file, hsrc, htok,
                Context.emit_tokenizer_error, Context.emit_diagnostic_internal,
                notify_num_errors, notify_hit_fail]
              omega

/-- Witness for C1 at a concrete failing `LoadFile` task. -/
theorem C1_witness :
    (((Context.init 1).run_load_file fsAllMissing "missing.x").2 = false) ∧
    ((Context.init 1).num_errors + 1 ≤
      ((Context.init 1).run_task fsAllMissing tokTrivial (Task.LoadFile "missing.x")).num_errors ∧
    ((Context.init 1).maxNumErrors ≤
        ((Context.init 1).run_task fsAllMissing tokTrivial (Task.LoadFile "missing.x")).num_errors →
      ((Context.init 1).run_task fsAllMissing tokTrivial
          (Task.LoadFile "missing.x")).hit_fail_condition = true)) :=
  ⟨rfl, C1_failure_increments_errors fsAllMissing tokTrivial (Context.init 1)
    (Task.LoadFile "missing.x") rfl⟩

/-! ## C2 -/

/-- C2: a `LoadFile` task on a missing path emits exactly one
`MiscFileDoesNotExist` Error diagnostic, increments `num_errors` by exactly
one, returns failure, and adds no source (first conjunct: the handler's exact
result); consequently (scenario 3) loading `["exists.x", "missing.x"]`
single-threaded with `max_num_errors = 10` leaves the SourceManager with only
`exists.x`, `num_errors = 1`, exactly one `MiscFileDoesNotExist` diagnostic,
and no fail condition (stage completes). -/
theorem C2_missing_file (fs : FileSystem) (ctx : Context) (path : String)
    (h : fs path = FileResult.notExists) :
    ctx.run_load_file fs path =
      ({ ctx with
          num_errors := ctx.num_errors + 1
          diagnostics := ctx.diagnostics ++
            [⟨Level.Error, Code.MiscFileDoesNotExist, none,
              "File \"" ++ path ++ "\" does not exist", []⟩] }, false) ∧
    (((Context.init 10).loadFiles fsScenario tokTrivial ["exists.x", "missing.x"]).1.src_manager.sources.map
        Source.path = ["exists.x"] ∧
      ((Context.init 10).loadFiles fsScenario tokTrivial ["exists.x", "missing.x"]).1.num_errors = 1 ∧
      ((Context.init 10).loadFiles fsScenario tokTrivial ["exists.x", "missing.x"]).1.hit_fail_condition = false ∧
      ((Context.init 10).loadFiles fsScenario tokTrivial ["exists.x", "missing.x"]).1.task_group_running = false ∧
      (((Context.init 10).loadFiles fsScenario tokTrivial
          ["exists.x", "missing.x"]).1.diagnostics.filter
            (fun d => d.code = Code.MiscFileDoesNotExist)).length = 1) := by
  constructor
  · simp [Context.run_load_file, h, Context.emit_diagnostic_internal]
  · decide

/-- Witness for C2 at the concrete missing path of scenario 3. -/
theorem C2_witness :
    fsScenario "missing.x" = FileResult.notExists ∧
    ((Context.init 10).run_load_file fsScenario "missing.x" =
      ({ Context.init 10 with
          num_errors := 1
          diagnostics := [⟨Level.Error, Code.MiscFileDoesNotExist, none,
            "File \"missing.x\" does not exist", []⟩] }, false) ∧
      (((Context.init 10).loadFiles fsScenario tokTrivial ["exists.x", "missing.x"]).1.src_manager.sources.map
          Source.path = ["exists.x"] ∧
        ((Context.init 10).loadFiles fsScenario tokTrivial ["exists.x", "missing.x"]).1.num_errors = 1 ∧
        ((Context.init 10).loadFiles fsScenario tokTrivial ["exists.x", "missing.x"]).1.hit_fail_condition = false ∧
        ((Context.init 10).loadFiles fsScenario tokTrivial ["exists.x", "missing.x"]).1.task_group_running = false ∧
        (((Context.init 10).loadFiles fsScenario tokTrivial
            ["exists.x", "missing.x"]).1.diagnostics.filter
              (fun d => d.code = Code.MiscFileDoesNotExist)).length = 1)) :=
  ⟨by decide, C2_missing_file fsScenario (Context.init 10) "missing.x" (by decide)⟩

/-! ## C3 -/

/-- Draining a queue of `LoadFile` tasks that all load cleanly appends one
source per path, in path order, with IDs continuing the dense numbering. -/
theorem consume_load_ok_sources (fs : FileSystem) (tok : TokenizerFn) (paths : List String)
    (ctx : Context) (hfail : ctx.hit_fail_condition = false)
    (hok : ∀ p ∈ paths, ∃ d, fs p = FileResult.ok d) :
    (Context.consume_tasks_single_threaded fs tok ctx (paths.map Task.LoadFile)).1.src_manager.sources.map
        Source.id =
      ctx.src_manager.sources.map Source.id ++
        List.range' ctx.src_manager.sources.length paths.length ∧
    (Context.consume_tasks_single_threaded fs tok ctx
        (paths.map Task.LoadFile)).1.src_manager.sources.map Source.path =
      ctx.src_manager.sources.map Source.path ++ paths := by
  induction paths generalizing ctx with
  | nil => simp [Context.consume_tasks_single_threaded]
  | cons p ps ih =>
      obtain ⟨d, hd⟩ := hok p (List.mem_cons_self p ps)
      have hstep :
          Context.consume_tasks_single_threaded fs tok ctx ((p :: ps).map Task.LoadFile) =
            Context.consume_tasks_single_threaded fs tok (ctx.run_task fs tok (Task.LoadFile p))
              (ps.map Task.LoadFile) := by
        simp [Context.consume_tasks_single_threaded, hfail]
      have hrun : ctx.run_task fs tok (Task.LoadFile p) =
          { ctx with src_manager := (ctx.src_manager.addSource p d).1 } := by
        simp [Context.run_task, Context.run_load_file, hd]
      rw [hstep, hrun]
      obtain ⟨h1, h2⟩ := ih { ctx with src_manager := (ctx.src_manager.addSource p d).1 }
        (by simpa using hfail) (fun q hq => hok q (List.mem_cons_of_mem p hq))
      refine ⟨?_, ?_⟩
      · rw [h1]
        simp [SourceManager.addSource, List.range'_succ]
      · rw [h2]
        simp [SourceManager.addSource]

/-- C3: in single-threaded mode, loading `n` paths that all succeed registers
exactly `n` sources, whose IDs are dense and gap-free (`id` = insertion index,
IDs = `{0, …, n−1}` in order) and whose insertion order matches the given path
order. -/
theorem C3_dense_ids_in_path_order (fs : FileSystem) (tok : TokenizerFn) (maxN : Nat)
    (paths : List String) (hok : ∀ p ∈ paths, ∃ d, fs p = FileResult.ok d) :
    ((Context.init maxN).loadFiles fs tok paths).1.src_manager.sources.length = paths.length ∧
    ((Context.init maxN).loadFiles fs tok paths).1.src_manager.sources.map Source.id =
      List.range paths.length ∧
    ((Context.init maxN).loadFiles fs tok paths).1.src_manager.sources.map Source.path =
      paths := by
  obtain ⟨h1, h2⟩ := consume_load_ok_sources fs tok paths
    { Context.init maxN with task_group_running := true } rfl hok
  have hids :
      ((Context.init maxN).loadFiles fs tok paths).1.src_manager.sources.map Source.id =
        List.range paths.length := by
    rw [Context.loadFiles, h1]
    simp [Context.init, List.range_eq_range']
  refine ⟨?_, hids, ?_⟩
  · have := congrArg List.length hids
    simpa using this
  · rw [Context.loadFiles, h2]
    simp [Context.init]

/-- Witness for C3: scenario 1's two clean files. -/
theorem C3_witness :
    (((Context.init 5).loadFiles fsAllOk tokTrivial ["a.x", "b.x"]).1.src_manager.sources.length =
        ["a.x", "b.x"].length ∧
      ((Context.init 5).loadFiles fsAllOk tokTrivial ["a.x", "b.x"]).1.src_manager.sources.map
          Source.id = List.range ["a.x", "b.x"].length ∧
      ((Context.init 5).loadFiles fsAllOk tokTrivial ["a.x", "b.x"]).1.src_manager.sources.map
          Source.path = ["a.x", "b.x"]) :=
  C3_dense_ids_in_path_order fsAllOk tokTrivial 5 ["a.x", "b.x"]
    (fun _ _ => ⟨"loaded bytes", rfl⟩)

/-! ## C4 -/

/-- One task either leaves the error counter and fail flag unchanged, or
increments the counter by exactly one and latches the flag exactly when the
incremented counter has reached the ceiling; `maxNumErrors` never changes. -/
theorem run_task_cases (fs : FileSystem) (tok : TokenizerFn) (ctx : Context) (task : Task) :
    (ctx.run_task fs tok task).maxNumErrors = ctx.maxNumErrors ∧
    (((ctx.run_task fs tok task).num_errors = ctx.num_errors ∧
        (ctx.run_task fs tok task).hit_fail_condition = ctx.hit_fail_condition) ∨
      ((ctx.run_task fs tok task).num_errors = ctx.num_errors + 1 ∧
        (ctx.run_task fs tok task).hit_fail_condition =
          (ctx.hit_fail_condition || decide (ctx.maxNumErrors ≤ ctx.num_errors + 1)))) := by
  cases task with
  | LoadFile path =>
      cases hfs : fs path with
      | notExists =>
          refine ⟨?_, Or.inr ⟨?_, ?_⟩⟩ <;>
            simp [Context.run_task, Context.run_load_file, hfs, Context.emit_diagnostic_internal,
              notify_num_errors, notify_maxNumErrors, notify_hit_fail]
      | openFail =>
          refine ⟨?_, Or.inr ⟨?_, ?_⟩⟩ <;>
            simp [Context.run_task, Context.run_load_file, hfs, Context.emit_diagnostic_internal,
              notify_num_errors, notify_maxNumErrors, notify_hit_fail]
      | readFail =>
          refine ⟨?_, Or.inr ⟨?_, ?_⟩⟩ <;>
            simp [Context.run_task, Context.run_load_file, hfs, Context.emit_diagnostic_internal,
              notify_num_errors, notify_maxNumErrors, notify_hit_fail]
      | ok d =>
          refine ⟨?_, Or.inl ⟨?_, ?_⟩⟩ <;>
            simp [Context.run_task, Context.run_load_file, hfs, SourceManager.addSource]
  | TokenizeFile sid =>
      cases hsrc : ctx.src_manager.getSource sid with
      | none =>
          refine ⟨?_, Or.inl ⟨?_, ?_⟩⟩ <;> simp [Context.run_task, Context.run_tokenize_file, hsrc]
      | some source =>
          cases htok : tok source.data with
          | ok buf =>
              refine ⟨?_, Or.inl ⟨?_, ?_⟩⟩ <;>
                simp [Context.run_task, Context.run_tokenize_file, hsrc, htok]
          | error =>
              refine ⟨?_, Or.inr ⟨?_, ?_⟩⟩ <;>
                simp [Context.run_task, Context.run_tokenize_file, hsrc, htok,
                  Context.emit_tokenizer_error, Context.emit_diagnostic_internal,
                  notify_num_errors, notify_maxNumErrors, notify_hit_fail]

/-- The ceiling invariant holds at every state of the single-threaded drain,
and the latched fail flag is monotone along the trace. -/
theorem drainTrace_invariant (fs : FileSystem) (tok : TokenizerFn) (tasks : List Task) :
    ∀ ctx : Context, ctx.num_errors ≤ ctx.maxNumErrors →
      (ctx.hit_fail_condition = true ↔ ctx.num_errors = ctx.maxNumErrors) →
      (∀ s ∈ Context.drainTrace fs tok ctx tasks,
          s.num_errors ≤ s.maxNumErrors ∧
          (s.hit_fail_condition = true ↔ s.num_errors = s.maxNumErrors)) ∧
      (Context.drainTrace fs tok ctx tasks).Chain'
        (fun a b => a.hit_fail_condition = true → b.hit_fail_condition = true) := by
  induction tasks with
  | nil =>
      intro ctx h1 h2
      refine ⟨?_, by simp [Context.drainTrace]⟩
      intro s hs
      simp only [Context.drainTrace, List.mem_singleton] at hs
      subst hs
      exact ⟨h1, h2⟩
  | cons t rest ih =>
      intro ctx h1 h2
      by_cases hf : ctx.hit_fail_condition = true
      · refine ⟨?_, ?_⟩
        · intro s hs
          simp only [Context.drainTrace, hf, if_true, List.mem_singleton] at hs
          subst hs
          exact ⟨h1, h2⟩
        · simp [Context.drainTrace, hf]
      · have hnum : ctx.num_errors < ctx.maxNumErrors := by
          have : ¬ ctx.num_errors = ctx.maxNumErrors := fun hh => hf (h2.mpr hh)
          omega
        obtain ⟨hmax', hcase⟩ := run_task_cases fs tok ctx t
        have hff : ctx.hit_fail_condition = false := by
          cases hcc : ctx.hit_fail_condition
          · rfl
          · exact absurd hcc hf
        have hinv : (ctx.run_task fs tok t).num_errors ≤ (ctx.run_task fs tok t).maxNumErrors ∧
            ((ctx.run_task fs tok t).hit_fail_condition = true ↔
              (ctx.run_task fs tok t).num_errors = (ctx.run_task fs tok t).maxNumErrors) := by
          rcases hcase with ⟨hn, hfl⟩ | ⟨hn, hfl⟩
          · rw [hn, hfl, hmax']
            exact ⟨h1, h2⟩
          · rw [hn, hfl, hmax', hff]
            constructor
            · omega
            · simp only [Bool.false_or, decide_eq_true_eq]
              omega
        obtain ⟨ihmem, ihchain⟩ := ih (ctx.run_task fs tok t) hinv.1 hinv.2
        have htrace : Context.drainTrace fs tok ctx (t :: rest) =
            ctx :: Context.drainTrace fs tok (ctx.run_task fs tok t) rest := by
          simp [Context.drainTrace, hff]
        refine ⟨?_, ?_⟩
        · intro s hs
          rw [htrace] at hs
          rcases List.mem_cons.mp hs with hs | hs
          · subst hs; exact ⟨h1, h2⟩
          · exact ihmem s hs
        · rw [htrace]
          refine List.chain'_cons'.mpr ⟨?_, ihchain⟩
          intro b _
          intro hcontra
          rw [hff] at hcontra
          exact absurd hcontra (by simp)

/-- C4: in every single-threaded run starting from `num_errors = 0`,
`max_num_errors > 0` and no fail condition, `num_errors ≤ max_num_errors`
holds at every state of the drain (initial, and after every task), the fail
flag is set exactly when the counter has reached the ceiling, and once set it
never becomes false again along the trace. -/
theorem C4_ceiling_invariant (fs : FileSystem) (tok : TokenizerFn) (ctx0 : Context)
    (tasks : List Task) (h0 : ctx0.num_errors = 0) (hmax : 0 < ctx0.maxNumErrors)
    (hfail0 : ctx0.hit_fail_condition = false) :
    (∀ s ∈ Context.drainTrace fs tok ctx0 tasks,
        s.num_errors ≤ s.maxNumErrors ∧
        (s.hit_fail_condition = true ↔ s.num_errors = s.maxNumErrors)) ∧
    (Context.drainTrace fs tok ctx0 tasks).Chain'
      (fun a b => a.hit_fail_condition = true → b.hit_fail_condition = true) :=
  drainTrace_invariant fs tok tasks ctx0 (by omega)
    (by rw [hfail0, h0]; constructor
        · intro hh; exact absurd hh (by simp)
        · intro hh; omega)

/-- Witness for C4: three missing files against a ceiling of 2. -/
theorem C4_witness :
    ((Context.init 2).num_errors = 0 ∧ 0 < (Context.init 2).maxNumErrors ∧
      (Context.init 2).hit_fail_condition = false) ∧
    ((∀ s ∈ Context.drainTrace fsAllMissing tokTrivial (Context.init 2)
          [Task.LoadFile "m1.x", Task.LoadFile "m2.x", Task.LoadFile "m3.x"],
        s.num_errors ≤ s.maxNumErrors ∧
        (s.hit_fail_condition = true ↔ s.num_errors = s.maxNumErrors)) ∧
    (Context.drainTrace fsAllMissing tokTrivial (Context.init 2)
        [Task.LoadFile "m1.x", Task.LoadFile "m2.x", Task.LoadFile "m3.x"]).Chain'
      (fun a b => a.hit_fail_condition = true → b.hit_fail_condition = true)) :=
  ⟨⟨rfl, by decide, rfl⟩,
    C4_ceiling_invariant fsAllMissing tokTrivial (Context.init 2)
      [Task.LoadFile "m1.x", Task.LoadFile "m2.x", Task.LoadFile "m3.x"] rfl (by decide) rfl⟩

/-! ## C6 -/

/-- C6: for the source `"abc\n  xyz\n"` and a diagnostic at line 2, columns 3
through 5, the default renderer displays the line text `"xyz"` (both leading
whitespace characters stripped), adjusts the caret column from 3 to 1
(`point_collumn = 1`, so the pointer line has no leading padding), and draws a
span of exactly three caret characters (`"^^^"`). -/
theorem C6_caret_rendering :
    print_location srcC6 Level.Error locC6 =
      some { events := [PrintEvent.gray "\ttest.pthr:2:3\n", PrintEvent.gray "\t2 | xyz\n",
                        PrintEvent.gray "\t  | ", PrintEvent.error "^^^\n"]
             line_str := ['x', 'y', 'z']
             point_collumn := 1
             readTrace := [0, 1, 2, 3, 4, 5, 6, 7, 8, 9] } := by
  decide

/-! ## C8 -/

theorem tokInstall_id (tok : TokenizerFn) (s : Source) : (tokInstall tok s).id = s.id := by
  unfold tokInstall
  split <;> rfl

theorem tokInstall_data (tok : TokenizerFn) (s : Source) : (tokInstall tok s).data = s.data := by
  unfold tokInstall
  split <;> rfl

theorem tokInstall_idem (tok : TokenizerFn) (s : Source) :
    tokInstall tok (tokInstall tok s) = tokInstall tok s := by
  cases h : tok s.data with
  | error => simp [tokInstall, h]
  | ok b =>
      have h2 : tok (tokInstall tok s).data = TokenizeResult.ok b := by
        rw [tokInstall_data, h]
      simp [tokInstall, h2, h]

theorem run_task_tokenize_ok (fs : FileSystem) (tok : TokenizerFn) (ctx : Context)
    (sid : Nat) (s : Source) (b : TokenBuffer)
    (hs : ctx.src_manager.getSource sid = some s) (hb : tok s.data = TokenizeResult.ok b) :
    ctx.run_task fs tok (Task.TokenizeFile sid) =
      { ctx with src_manager := ctx.src_manager.setTokenBuffer sid b } := by
  simp [Context.run_task, Context.run_tokenize_file, hs, hb]

/-- Draining the `TokenizeFile` queue snapshotted from `post` (the not yet
processed suffix of the registry, whose IDs continue densely after the
already-processed prefix `pre`) installs each source's tokenization result in
place, in order, and consumes the whole queue. -/
theorem consume_tokenize_ok (fs : FileSystem) (tok : TokenizerFn) (post : List Source) :
    ∀ (pre : List Source) (ctx : Context),
      ctx.hit_fail_condition = false →
      ctx.src_manager.sources = pre.map (tokInstall tok) ++ post →
      (∀ k (hk : k < post.length), (post.get ⟨k, hk⟩).id = pre.length + k) →
      (∀ s ∈ post, ∃ b, tok s.data = TokenizeResult.ok b) →
      Context.consume_tasks_single_threaded fs tok ctx
          (post.map (fun s => Task.TokenizeFile s.id)) =
        ({ ctx with
            task_group_running := false
            src_manager := ⟨(pre ++ post).map (tokInstall tok)⟩ }, []) := by
  induction post with
  | nil =>
      intro pre ctx hfail hsrc hids hok
      have hsm : ctx.src_manager = ⟨(pre ++ []).map (tokInstall tok)⟩ := by
        rw [List.append_nil]
        exact congrArg SourceManager.mk (by simpa using hsrc)
      rw [← hsm]
      rfl
  | cons s post' ih =>
      intro pre ctx hfail hsrc hids hok
      obtain ⟨b, hb⟩ := hok s (List.mem_cons_self s post')
      have hid0 : s.id = pre.length := by
        have := hids 0 (by simp)
        simpa using this
      have hget : ctx.src_manager.getSource s.id = some s := by
        rw [SourceManager.getSource, hsrc, hid0]
        rw [List.getElem?_append_right (by simp)]
        simp
      have hget2 : ctx.src_manager.sources[s.id]? = some s := hget
      have hrun := run_task_tokenize_ok fs tok ctx s.id s b hget hb
      have hinst : { s with token_buffer := b } = tokInstall tok s := by
        simp [tokInstall, hb]
      have hsets : ctx.src_manager.sources.set s.id { s with token_buffer := b } =
          (pre ++ [s]).map (tokInstall tok) ++ post' := by
        rw [hinst, hsrc, hid0]
        rw [List.set_append_right _ _ (by simp)]
        simp
      have hset : ctx.src_manager.setTokenBuffer s.id b =
          ⟨(pre ++ [s]).map (tokInstall tok) ++ post'⟩ := by
        simp only [SourceManager.setTokenBuffer, hget2]
        rw [hsets]
      have hstep :
          Context.consume_tasks_single_threaded fs tok ctx
              ((s :: post').map (fun q => Task.TokenizeFile q.id)) =
            Context.consume_tasks_single_threaded fs tok
              (ctx.run_task fs tok (Task.TokenizeFile s.id))
              (post'.map (fun q => Task.TokenizeFile q.id)) := by
        simp [Context.consume_tasks_single_threaded, hfail]
      rw [hstep, hrun, hset]
      have hres := ih (pre ++ [s])
        { ctx with src_manager := ⟨(pre ++ [s]).map (tokInstall tok) ++ post'⟩ }
        (by simpa using hfail) (by simp)
        (fun k hk => by
          have h := hids (k + 1) (by simpa using Nat.succ_lt_succ hk)
          simp only [List.get_eq_getElem, List.getElem_cons_succ] at h
          simp only [List.get_eq_getElem, List.length_append, List.length_cons,
            List.length_nil]
          omega)
        (fun q hq => hok q (List.mem_cons_of_mem s hq))
      rw [hres]
      have hassoc : pre ++ [s] ++ post' = pre ++ s :: post' := by simp
      rw [hassoc]

theorem tokenizeLoadedFiles_installs (fs : FileSystem) (tok : TokenizerFn) (ctx : Context)
    (hfail : ctx.hit_fail_condition = false)
    (hids : ∀ k (hk : k < ctx.src_manager.sources.length),
        (ctx.src_manager.sources.get ⟨k, hk⟩).id = k)
    (hok : ∀ s ∈ ctx.src_manager.sources, ∃ b, tok s.data = TokenizeResult.ok b) :
    ctx.tokenizeLoadedFiles fs tok =
      ({ ctx with
          task_group_running := false
          src_manager := ⟨ctx.src_manager.sources.map (tokInstall tok)⟩ }, []) := by
  rw [Context.tokenizeLoadedFiles]
  have h := consume_tokenize_ok fs tok ctx.src_manager.sources []
    { ctx with task_group_running := true } (by simpa using hfail) (by simp)
    (fun k hk => by simpa using hids k hk) hok
  rw [h]
  simp

/-- C8: with the tokenizer a deterministic function of the source bytes,
running `tokenize_loaded_files` a second time after a clean load-and-tokenize
(dense IDs, no fail condition, every source tokenizes successfully) installs a
buffer equal to the first run's: every source, hence every token buffer's
length and token contents, is unchanged. -/
theorem C8_retokenize_equal (fs : FileSystem) (tok : TokenizerFn) (ctx : Context)
    (hfail : ctx.hit_fail_condition = false)
    (hids : ∀ k (hk : k < ctx.src_manager.sources.length),
        (ctx.src_manager.sources.get ⟨k, hk⟩).id = k)
    (hok : ∀ s ∈ ctx.src_manager.sources, ∃ b, tok s.data = TokenizeResult.ok b) :
    ((ctx.tokenizeLoadedFiles fs tok).1.tokenizeLoadedFiles fs tok).1.src_manager.sources =
      (ctx.tokenizeLoadedFiles fs tok).1.src_manager.sources ∧
    ((ctx.tokenizeLoadedFiles fs tok).1.tokenizeLoadedFiles fs
          tok).1.src_manager.sources.map (fun s => s.token_buffer.tokens) =
      (ctx.tokenizeLoadedFiles fs tok).1.src_manager.sources.map
        (fun s => s.token_buffer.tokens) ∧
    ((ctx.tokenizeLoadedFiles fs tok).1.tokenizeLoadedFiles fs
          tok).1.src_manager.sources.map (fun s => s.token_buffer.size) =
      (ctx.tokenizeLoadedFiles fs tok).1.src_manager.sources.map
        (fun s => s.token_buffer.size) := by
  have h1 := tokenizeLoadedFiles_installs fs tok ctx hfail hids hok
  have hids1 : ∀ k (hk : k <
      (ctx.tokenizeLoadedFiles fs tok).1.src_manager.sources.length),
      ((ctx.tokenizeLoadedFiles fs tok).1.src_manager.sources.get ⟨k, hk⟩).id = k := by
    rw [h1]
    intro k hk
    simp only [List.get_eq_getElem, List.getElem_map]
    rw [tokInstall_id]
    have hk2 : k < ctx.src_manager.sources.length := by simpa using hk
    exact hids k hk2
  have hok1 : ∀ s ∈ (ctx.tokenizeLoadedFiles fs tok).1.src_manager.sources,
      ∃ b, tok s.data = TokenizeResult.ok b := by
    rw [h1]
    intro s hs
    simp only [List.mem_map] at hs
    obtain ⟨q, hq, rfl⟩ := hs
    rw [tokInstall_data]
    exact hok q hq
  have hfail1 : (ctx.tokenizeLoadedFiles fs tok).1.hit_fail_condition = false := by
    rw [h1]
    simpa using hfail
  have h2 := tokenizeLoadedFiles_installs fs tok (ctx.tokenizeLoadedFiles fs tok).1
    hfail1 hids1 hok1
  have hsources :
      ((ctx.tokenizeLoadedFiles fs tok).1.tokenizeLoadedFiles fs tok).1.src_manager.sources =
        (ctx.tokenizeLoadedFiles fs tok).1.src_manager.sources := by
    rw [h2]
    conv_rhs => rw [h1]
    simp only []
    conv_lhs => rw [h1]
    simp [List.map_map, Function.comp, tokInstall_idem]
  exact ⟨hsources, congrArg (List.map (fun s => s.token_buffer.tokens)) hsources,
    congrArg (List.map (fun s => s.token_buffer.size)) hsources⟩

/-- Witness for C8: one loaded source, tokenized twice. -/
theorem C8_witness :
    (ctxC8.hit_fail_condition = false) ∧
    (((ctxC8.tokenizeLoadedFiles fsAllOk tokTrivial).1.tokenizeLoadedFiles fsAllOk
          tokTrivial).1.src_manager.sources =
        (ctxC8.tokenizeLoadedFiles fsAllOk tokTrivial).1.src_manager.sources ∧
      ((ctxC8.tokenizeLoadedFiles fsAllOk tokTrivial).1.tokenizeLoadedFiles fsAllOk
            tokTrivial).1.src_manager.sources.map (fun s => s.token_buffer.tokens) =
        (ctxC8.tokenizeLoadedFiles fsAllOk tokTrivial).1.src_manager.sources.map
          (fun s => s.token_buffer.tokens) ∧
      ((ctxC8.tokenizeLoadedFiles fsAllOk tokTrivial).1.tokenizeLoadedFiles fsAllOk
            tokTrivial).1.src_manager.sources.map (fun s => s.token_buffer.size) =
        (ctxC8.tokenizeLoadedFiles fsAllOk tokTrivial).1.src_manager.sources.map
          (fun s => s.token_buffer.size)) :=
  ⟨rfl, C8_retokenize_equal fsAllOk tokTrivial ctxC8 rfl
    (fun k hk => by
      have hk0 : k = 0 := by
        have : k < 1 := hk
        omega
      subst hk0
      rfl)
    (fun s _ => ⟨TokenBuffer.emptyBuffer, rfl⟩)⟩

/-! ## C9 -/

/-- Counterexample to C9 as stated: for the one-byte source `"a"` (the
location's line is the final line and the data has no trailing line
terminator), the scan's read trace is `[0, 1]` while the data size is `1`:
the loop condition at line 66 reads `source.getData()[1]` — the index equal to
`size()` — before the bounds check stops it, so the scan does *not* read only
at indices strictly less than the size. -/
theorem C9_counterexample :
    ∃ res, print_location srcC9 Level.Error locC9 = some res ∧
      res.readTrace = [0, 1] ∧ srcC9.data.data.length = 1 ∧
      ¬ (∀ i ∈ res.readTrace, i < srcC9.data.data.length) :=
  ⟨{ events := [PrintEvent.gray "\tlast.pthr:1:1\n", PrintEvent.gray "\t1 | a\n",
                PrintEvent.gray "\t  | ", PrintEvent.error "^\n"]
     line_str := ['a'], point_collumn := 1, readTrace := [0, 1] },
   by decide, rfl, rfl, by decide⟩

/-- Helper for reading the `trace ++ [cursor]` extension. -/
theorem trace_extend_le (bound cursor : Nat) (trace : List Nat)
    (htr : ∀ i ∈ trace, i ≤ bound) (hc : cursor ≤ bound) :
    ∀ i ∈ trace ++ [cursor], i ≤ bound := by
  intro i hi
  rcases List.mem_append.mp hi with hi | hi
  · exact htr i hi
  · simp only [List.mem_singleton] at hi
    omega

/-- Helper for reading the `trace ++ [cursor, cursor + 1]` extension. -/
theorem trace_extend2_le (bound cursor : Nat) (trace : List Nat)
    (htr : ∀ i ∈ trace, i ≤ bound) (hc : cursor + 1 ≤ bound) :
    ∀ i ∈ trace ++ [cursor, cursor + 1], i ≤ bound := by
  intro i hi
  rcases List.mem_append.mp hi with hi | hi
  · exact htr i hi
  · simp only [List.mem_cons, List.mem_singleton, List.not_mem_nil, or_false] at hi
    rcases hi with hi | hi <;> omega

/-- The line-finding scan preserves `remaining.length + cursor = size` and
keeps every recorded read index at most `size`. -/
theorem find_line_start_trace_le (lineStart bound : Nat) (remaining : List Char)
    (cursor current_line : Nat) (trace : List Nat) :
    remaining.length + cursor = bound →
    (∀ i ∈ trace, i ≤ bound) →
    ∀ rem2 cur2 tr2,
      find_line_start lineStart remaining cursor current_line trace = some (rem2, cur2, tr2) →
      rem2.length + cur2 = bound ∧ ∀ i ∈ tr2, i ≤ bound := by
  induction remaining, cursor, current_line, trace using find_line_start.induct lineStart with
  | case1 cursor current_line trace h =>
      intro hsum htr rem2 cur2 tr2 hfind
      rw [find_line_start.eq_def] at hfind
      simp [h] at hfind
  | case2 cursor current_line trace h rest ih =>
      intro hsum htr rem2 cur2 tr2 hfind
      rw [find_line_start.eq_def] at hfind
      simp only [h, if_true, List.length_cons] at hfind hsum
      exact ih (by omega) (trace_extend_le bound cursor trace htr (by omega)) rem2 cur2 tr2
        (by simpa using hfind)
  | case3 cursor current_line trace h rest2 hne ih =>
      intro hsum htr rem2 cur2 tr2 hfind
      rw [find_line_start.eq_def] at hfind
      simp only [h, if_true, List.length_cons] at hfind hsum
      exact ih (by omega) (trace_extend2_le bound cursor trace htr (by omega)) rem2 cur2 tr2
        (by simpa using hfind)
  | case4 cursor current_line trace h hne ih =>
      intro hsum htr rem2 cur2 tr2 hfind
      rw [find_line_start.eq_def] at hfind
      simp only [h, if_true, List.length_cons, List.length_nil] at hfind hsum
      exact ih (by simp only [List.length_nil]; omega)
        (trace_extend2_le bound cursor trace htr (by omega)) rem2 cur2 tr2
        (by simpa using hfind)
  | case5 cursor current_line trace h c2 rest2 hc2 hne ih =>
      intro hsum htr rem2 cur2 tr2 hfind
      rw [find_line_start.eq_def] at hfind
      have hc2' : ¬ c2 = '\n' := fun hh => hc2 hh
      simp only [h, if_true, hc2', List.length_cons] at hfind hsum
      refine ih (by simp only [List.length_cons]; omega)
        (trace_extend2_le bound cursor trace htr (by omega)) rem2 cur2 tr2 ?_
      simpa [hc2'] using hfind
  | case6 cursor current_line trace h c rest hcn hcr ih =>
      intro hsum htr rem2 cur2 tr2 hfind
      rw [find_line_start.eq_def] at hfind
      simp only [h, if_true, hcn, hcr, List.length_cons] at hfind hsum
      exact ih (by omega) (trace_extend_le bound cursor trace htr (by omega)) rem2 cur2 tr2
        (by simpa [hcn, hcr] using hfind)
  | case7 t cursor current_line trace h =>
      intro hsum htr rem2 cur2 tr2 hfind
      rw [find_line_start.eq_def] at hfind
      simp only [h, if_false] at hfind
      simp only [Option.some.injEq, Prod.mk.injEq] at hfind
      obtain ⟨h1, h2, h3⟩ := hfind
      subst h1
      subst h2
      subst h3
      exact ⟨hsum, htr⟩

/-- The line-extraction loop keeps every recorded read index at most `size`;
the final read (at loop exit) is at index exactly `size` only when the line
runs to the end of the data. -/
theorem extract_line_trace_le (bound : Nat) (remaining : List Char)
    (cursor point_collumn : Nat) (remove_whitespace : Bool) (line_str : List Char)
    (trace : List Nat) :
    remaining.length + cursor = bound →
    (∀ i ∈ trace, i ≤ bound) →
    ∀ i ∈ (extract_line remaining cursor point_collumn remove_whitespace line_str
        trace).2.2.2, i ≤ bound := by
  induction remaining, cursor, point_collumn, remove_whitespace, line_str, trace
    using extract_line.induct with
  | case1 cursor pc rws ls trace =>
      intro hsum htr
      rw [extract_line.eq_def]
      simp only [List.length_nil] at hsum
      exact trace_extend_le bound cursor trace htr (by omega)
  | case2 cursor pc rws ls trace c rest hor =>
      intro hsum htr
      rw [extract_line.eq_def]
      simp only [List.length_cons] at hsum
      simp only [hor, if_true]
      exact trace_extend_le bound cursor trace htr (by omega)
  | case3 cursor pc rws ls trace c rest hnor hand ih =>
      intro hsum htr
      rw [extract_line.eq_def]
      simp only [List.length_cons] at hsum
      simp only [hnor, if_false]
      rw [if_pos hand]
      exact ih (by omega) (trace_extend_le bound cursor trace htr (by omega))
  | case4 cursor pc rws ls trace c rest hnor hnand ih =>
      intro hsum htr
      rw [extract_line.eq_def]
      simp only [List.length_cons] at hsum
      simp only [hnor, hnand, if_false]
      exact ih (by omega) (trace_extend_le bound cursor trace htr (by omega))

/-- C9 (amended): for every source and every diagnostic location whose line
exists, the renderer's scan reads the source data only at indices *at most*
its size; the read at index = size is the `std::string` null terminator
(well-defined in C++), and it occurs exactly in the cases the claim singles
out (final line with no trailing terminator; `'\r'` as the last data byte). -/
theorem C9_reads_at_most_size (source : Source) (level : Level) (location : SrcLocation)
    (res : PrintLocationResult) (h : print_location source level location = some res) :
    ∀ i ∈ res.readTrace, i ≤ source.data.data.length := by
  simp only [print_location] at h
  cases hfind : find_line_start location.lineStart source.data.data 0 1 [] with
  | none =>
      simp only [hfind] at h
      cases h
  | some v =>
      obtain ⟨rem, cur, tr1⟩ := v
      simp only [hfind, Option.some.injEq] at h
      obtain ⟨hlen, htr1⟩ := find_line_start_trace_le location.lineStart
        source.data.data.length source.data.data 0 1 [] (by simp) (by simp) rem cur tr1 hfind
      subst h
      have hres := extract_line_trace_le source.data.data.length rem cur
        location.collumnStart true [] tr1 hlen htr1
      simpa using hres

/-- Witness for the amended C9 at the concrete final-line source `"a"`: the
scan's read at index 1 (the trace's largest entry) is at most the size 1. -/
theorem C9_witness :
    1 ≤ srcC9.data.data.length :=
  C9_reads_at_most_size srcC9 Level.Error locC9
    ⟨[PrintEvent.gray "\tlast.pthr:1:1\n", PrintEvent.gray "\t1 | a\n",
      PrintEvent.gray "\t  | ", PrintEvent.error "^\n"], ['a'], 1, [0, 1]⟩ (by decide)
    1 (by decide)

/-! ## C10 -/

/-- Rendering a location at `Info` level produces three gray prints and a
pointer line through the `Info` printer. -/
theorem print_location_info_shape (source : Source) (location : SrcLocation)
    (res : PrintLocationResult) (h : print_location source Level.Info location = some res) :
    ∃ a b c p, res.events =
      [PrintEvent.gray a, PrintEvent.gray b, PrintEvent.gray c, PrintEvent.info p] := by
  simp only [print_location] at h
  cases hfind : find_line_start location.lineStart source.data.data 0 1 [] with
  | none =>
      simp only [hfind] at h
      cases h
  | some v =>
      obtain ⟨rem, cur, tr1⟩ := v
      simp only [hfind, Option.some.injEq] at h
      subst h
      exact ⟨_, _, _, _, rfl⟩

theorem print_location_events_info_no_header (sm : SourceManager) (location : SrcLocation) :
    ∀ e ∈ print_location_events sm Level.Info location, isHeaderEvent e = false := by
  intro e he
  cases hsrc : sm.getSource location.sourceID with
  | none => simp only [print_location_events, hsrc, List.not_mem_nil] at he
  | some source =>
      cases hpl : print_location source Level.Info location with
      | none => simp only [print_location_events, hsrc, hpl, List.not_mem_nil] at he
      | some res =>
          simp only [print_location_events, hsrc, hpl] at he
          obtain ⟨a, b, c, p, hev⟩ := print_location_info_shape source location res hpl
          rw [hev] at he
          simp only [List.mem_cons, List.not_mem_nil, or_false] at he
          rcases he with rfl | rfl | rfl | rfl <;> rfl

/-- C10: the level-tagged message header line is printed iff the level is
Fatal, Error or Warning (the callback's `switch` has no `Info` case), and an
`Info`-level top-level diagnostic with a location still renders that location
— its events open the output and its caret/pointer line goes through the
`Info` printer. -/
theorem C10_info_has_no_header (sm : SourceManager) (d : Diagnostic) :
    ((defaultDiagnosticCallback sm d).any isHeaderEvent = true ↔ d.level ≠ Level.Info) ∧
    (∀ location source res, d.level = Level.Info → d.location = some location →
      sm.getSource location.sourceID = some source →
      print_location source Level.Info location = some res →
      (∃ rest, defaultDiagnosticCallback sm d = res.events ++ rest) ∧
      ∃ ptr, res.events.getLast? = some (PrintEvent.info ptr)) := by
  have hinfoEvents : ∀ e ∈ (d.infos.map (fun info =>
        PrintEvent.cyan ("\t<Info> " ++ info.message ++ "\n") ::
          (match info.location with
           | none => []
           | some loc => print_location_events sm Level.Info loc))).flatten,
      isHeaderEvent e = false := by
    intro e he
    simp only [List.mem_flatten] at he
    obtain ⟨block, hblock, heb⟩ := he
    simp only [List.mem_map] at hblock
    obtain ⟨info, _, rfl⟩ := hblock
    rcases List.mem_cons.mp heb with rfl | hrest
    · rfl
    · cases hloc : info.location with
      | none => simp only [hloc, List.not_mem_nil] at hrest
      | some loc =>
          simp only [hloc] at hrest
          exact print_location_events_info_no_header sm loc e hrest
  constructor
  · constructor
    · intro hany hlevel
      rw [List.any_eq_true] at hany
      obtain ⟨e, he, hhe⟩ := hany
      simp only [defaultDiagnosticCallback, hlevel, List.nil_append] at he
      rcases List.mem_append.mp he with he | he
      · cases hloc : d.location with
        | none => simp only [hloc, List.not_mem_nil] at he
        | some loc =>
            simp only [hloc] at he
            have hfalse := print_location_events_info_no_header sm loc e he
            rw [hfalse] at hhe
            cases hhe
      · have hfalse := hinfoEvents e he
        rw [hfalse] at hhe
        cases hhe
    · intro hne
      rw [List.any_eq_true]
      cases hl : d.level with
      | Info => exact absurd hl hne
      | Fatal =>
          simp only [defaultDiagnosticCallback, hl]
          refine ⟨PrintEvent.fatal
            ("<" ++ levelStr Level.Fatal ++ "|" ++ codeStr d.code ++ "> " ++ d.message
              ++ "\n"), ?_, rfl⟩
          simp
      | Error =>
          simp only [defaultDiagnosticCallback, hl]
          refine ⟨PrintEvent.error
            ("<" ++ levelStr Level.Error ++ "|" ++ codeStr d.code ++ "> " ++ d.message
              ++ "\n"), ?_, rfl⟩
          simp
      | Warning =>
          simp only [defaultDiagnosticCallback, hl]
          refine ⟨PrintEvent.warning
            ("<" ++ levelStr Level.Warning ++ "|" ++ codeStr d.code ++ "> " ++ d.message
              ++ "\n"), ?_, rfl⟩
          simp
  · intro location source res hlevel hloc hsrc hpl
    constructor
    · refine ⟨(d.infos.map (fun info =>
          PrintEvent.cyan ("\t<Info> " ++ info.message ++ "\n") ::
            (match info.location with
             | none => []
             | some loc => print_location_events sm Level.Info loc))).flatten, ?_⟩
      simp only [defaultDiagnosticCallback, hlevel, hloc, List.nil_append,
        print_location_events, hsrc, hpl]
    · obtain ⟨a, b, c, p, hev⟩ := print_location_info_shape source location res hpl
      rw [hev]
      exact ⟨p, rfl⟩

/-- Witness for C10 at the concrete `Info` diagnostic `dC10`. -/
theorem C10_witness :
    ((defaultDiagnosticCallback smC10 dC10).any isHeaderEvent = true ↔
      dC10.level ≠ Level.Info) ∧
    ((∃ rest, defaultDiagnosticCallback smC10 dC10 = resC10.events ++ rest) ∧
      ∃ ptr, resC10.events.getLast? = some (PrintEvent.info ptr)) :=
  ⟨(C10_info_has_no_header smC10 dC10).1,
    (C10_info_has_no_header smC10 dC10).2 locC10 srcC10 resC10 rfl rfl (by decide)
      (by decide)⟩

end Panther
